import Mathlib

/-!
Verification of the crypto-tracker ingestion/metrics pipeline.

Shallow embedding of the Python sources under backend/. Machine floats are
modelled with exact rationals; Python round(x, nd) (ties to even) is modelled
by pyRound. Dictionaries keyed by symbol are modelled as association lists
with unique keys, updated in place like a Python dict.
-/

/-- Numeric mean as computed by np.mean: sum divided by length. -/
def npMean (l : List ℚ) : ℚ := l.sum / l.length

/-- Successive differences, as np.diff on a price array. -/
def diff : List ℚ → List ℚ
  | [] => []
  | [_] => []
  | a :: b :: r => (b - a) :: diff (b :: r)

/-- Round half to even on rationals, the tie rule of Python round. -/
def roundHalfEven (x : ℚ) : ℤ :=
  let n := ⌊x⌋
  let f := x - n
  if f < 1/2 then n
  else if 1/2 < f then n + 1
  else if 2 ∣ n then n else n + 1

/-- Python round(x, nd): scale by a power of ten, round half to even, scale back. -/
def pyRound (x : ℚ) (nd : ℕ) : ℚ := (roundHalfEven ((10 ^ nd : ℚ) * x) : ℚ) / (10 ^ nd : ℚ)

/-- RSI of DistributedCryptoCalculator.calculate_rsi in backend/core/tasks.py:
fewer than period+1 prices returns the neutral 50; gains and losses are the
positive and negative parts of np.diff; the averages are np.mean over the last
period entries; zero average loss returns 100. -/
def tasksCalculateRsi (prices : List ℚ) (period : ℕ) : ℚ :=
  if prices.length < period + 1 then 50
  else
    let deltas := diff prices
    let gains := deltas.map (fun d => if 0 < d then d else 0)
    let losses := deltas.map (fun d => if d < 0 then -d else 0)
    let avgGain := npMean (gains.drop (gains.length - period))
    let avgLoss := npMean (losses.drop (losses.length - period))
    if avgLoss = 0 then 100
    else 100 - 100 / (1 + avgGain / avgLoss)

/-- One Wilder smoothing step of the loop in calculate_rsi of
backend/core/management/commands/start_websocket.py: avg becomes
(avg * (period - 1) + new) / period for the gain and the loss track. -/
def wilderStep (period : ℕ) (gl : ℚ × ℚ) (delta : ℚ) : ℚ × ℚ :=
  let gain := if 0 < delta then delta else 0
  let loss := if 0 < delta then 0 else -delta
  ((gl.1 * ((period : ℚ) - 1) + gain) / period, (gl.2 * ((period : ℚ) - 1) + loss) / period)

/-- Wilder smoothing over the deltas after the seed window. -/
def swWilderLoop (period : ℕ) (gl : ℚ × ℚ) (deltas : List ℚ) : ℚ × ℚ :=
  deltas.foldl (wilderStep period) gl

/-- RSI of calculate_rsi in start_websocket.py: at most period prices returns
50; the seed averages come from the first period deltas; a zero loss average
returns 70 (both before and after the smoothing loop); the final value is
replaced by 50 unless it lies in [0, 100]. The NaN and Inf checks of the
source cannot fire over exact rationals, and the enclosing try/except
(which also returns 50) has no failing operation here. -/
def swCalculateRsi (prices : List ℚ) (period : ℕ) : ℚ :=
  if prices.length ≤ period then 50
  else
    let deltas := diff prices
    let seed := deltas.take period
    let gains0 := (seed.filter (fun d => 0 ≤ d)).sum / (period : ℚ)
    let losses0 := (-(seed.filter (fun d => d < 0)).sum) / (period : ℚ)
    if losses0 = 0 then 70
    else
      let gl := swWilderLoop period (gains0, losses0) (deltas.drop period)
      if gl.2 = 0 then 70
      else
        let rsi := 100 - 100 / (1 + gl.1 / gl.2)
        if 0 ≤ rsi ∧ rsi ≤ 100 then rsi else 50

/-- RSI of BinanceWebSocketClient._calculate_rsi in
backend/core/binance_ws_client.py (textually repeated as the nested
calculate_rsi helper inside CryptoConsumer in consumers.py): returns none
(Python None) on fewer than period+1 closes, 100.0 on a zero average loss,
and otherwise the RSI rounded to two decimals. -/
def binanceCalculateRsi (closes : List ℚ) (period : ℕ) : Option ℚ :=
  if closes.length < period + 1 then none
  else
    let deltas := diff closes
    let gains := deltas.map (fun d => if 0 < d then d else 0)
    let losses := deltas.map (fun d => if d < 0 then |d| else 0)
    if gains.length < period then none
    else
      let avgGain := (gains.drop (gains.length - period)).sum / (period : ℚ)
      let avgLoss := (losses.drop (losses.length - period)).sum / (period : ℚ)
      if avgLoss = 0 then some 100
      else some (pyRound (100 - 100 / (1 + avgGain / avgLoss)) 2)

lemma npMean_nonneg {l : List ℚ} (h : ∀ x ∈ l, 0 ≤ x) : 0 ≤ npMean l := by
  unfold npMean
  exact div_nonneg (List.sum_nonneg h) (by positivity)

lemma mem_drop_imp {α : Type} {l : List α} {n : ℕ} {x : α} (h : x ∈ l.drop n) : x ∈ l :=
  List.mem_of_mem_drop h

lemma rsi_core_range {g l : ℚ} (hg : 0 ≤ g) (hl : 0 < l) :
    0 ≤ 100 - 100 / (1 + g / l) ∧ 100 - 100 / (1 + g / l) ≤ 100 := by
  have hrs : 0 ≤ g / l := div_nonneg hg hl.le
  have h1 : (1 : ℚ) ≤ 1 + g / l := by linarith
  have h0 : 0 < 1 + g / l := by linarith
  have hle : 100 / (1 + g / l) ≤ 100 := div_le_self (by norm_num) h1
  have hpos : 0 < 100 / (1 + g / l) := div_pos (by norm_num) h0
  constructor <;> linarith

/-- C1: For every input price sequence (and any positive period, the code is
always called with the default 14), both cited RSI implementations return a
value in [0, 100]; over the exact-arithmetic embedding no NaN or infinity can
arise, out-of-range values being clamped (start_websocket) or impossible
(tasks). -/
theorem c1_rsi_range (prices : List ℚ) (period : ℕ) (hp : 1 ≤ period) :
    (0 ≤ swCalculateRsi prices period ∧ swCalculateRsi prices period ≤ 100) ∧
    (0 ≤ tasksCalculateRsi prices period ∧ tasksCalculateRsi prices period ≤ 100) := by
  constructor
  · unfold swCalculateRsi
    dsimp only
    split_ifs with h1 h2 h3 h4
    · norm_num
    · norm_num
    · norm_num
    · exact h4
    · norm_num
  · unfold tasksCalculateRsi
    dsimp only
    split_ifs with h1 h2
    · norm_num
    · norm_num
    · set deltas := diff prices with hd
      apply rsi_core_range
      · apply npMean_nonneg
        intro x hx
        have := mem_drop_imp hx
        rcases List.mem_map.mp this with ⟨d, _, rfl⟩
        split_ifs with hpos
        · exact hpos.le
        · exact le_refl 0
      · rcases lt_or_eq_of_le (npMean_nonneg (l :=
          (deltas.map (fun d => if d < 0 then -d else 0)).drop
            ((deltas.map (fun d => if d < 0 then -d else 0)).length - period))
          (by
            intro x hx
            have := mem_drop_imp hx
            rcases List.mem_map.mp this with ⟨d, _, rfl⟩
            split_ifs with hneg
            · linarith
            · exact le_refl 0)) with hlt | heq
        · exact hlt
        · exact absurd heq.symm h2

/-- Witness for c1_rsi_range at a concrete short price list and period 14. -/
theorem c1_rsi_range_witness :
    1 ≤ 14 ∧
    ((0 ≤ swCalculateRsi [1, 2, 3] 14 ∧ swCalculateRsi [1, 2, 3] 14 ≤ 100) ∧
     (0 ≤ tasksCalculateRsi [1, 2, 3] 14 ∧ tasksCalculateRsi [1, 2, 3] 14 ≤ 100)) :=
  ⟨by decide, c1_rsi_range [1, 2, 3] 14 (by decide)⟩

lemma diff_cons_replicate (c : ℚ) : ∀ n, diff (c :: List.replicate n c) = List.replicate n 0 := by
  intro n
  induction n with
  | zero => rfl
  | succ m ih =>
      simp only [List.replicate_succ, diff, sub_self] at *
      exact congrArg (0 :: ·) ih

lemma diff_replicate (c : ℚ) (n : ℕ) :
    diff (List.replicate n c) = List.replicate (n - 1) 0 := by
  cases n with
  | zero => rfl
  | succ m => simpa [List.replicate_succ] using diff_cons_replicate c m

lemma sum_of_replicate_zero_sublists {l : List ℚ} (h : ∀ x ∈ l, x = 0) : l.sum = 0 := by
  induction l with
  | nil => rfl
  | cons a r ih =>
      have ha := h a (by simp)
      have hr := ih (fun x hx => h x (by simp [hx]))
      simp [ha, hr]


lemma rsi_constant_eval (c : ℚ) (n period : ℕ) (hn : period + 1 ≤ n) :
    binanceCalculateRsi (List.replicate n c) period = some 100 ∧
    tasksCalculateRsi (List.replicate n c) period = 100 ∧
    swCalculateRsi (List.replicate n c) period = 70 := by
  have hdiff : diff (List.replicate n c) = List.replicate (n - 1) 0 := diff_replicate c n
  refine ⟨?_, ?_, ?_⟩
  · unfold binanceCalculateRsi
    dsimp only
    rw [hdiff, List.length_replicate, if_neg (by omega)]
    have hmapl : (List.replicate (n - 1) (0 : ℚ)).map (fun d => if d < 0 then |d| else 0) =
        List.replicate (n - 1) 0 := by simp
    have hmapg : (List.replicate (n - 1) (0 : ℚ)).map (fun d => if 0 < d then d else 0) =
        List.replicate (n - 1) 0 := by simp
    rw [hmapl, hmapg, List.length_replicate, if_neg (by omega), List.drop_replicate]
    simp [List.sum_replicate]
  · unfold tasksCalculateRsi
    dsimp only
    rw [hdiff, List.length_replicate, if_neg (by omega)]
    have hmapl : (List.replicate (n - 1) (0 : ℚ)).map (fun d => if d < 0 then -d else 0) =
        List.replicate (n - 1) 0 := by simp
    have hmapg : (List.replicate (n - 1) (0 : ℚ)).map (fun d => if 0 < d then d else 0) =
        List.replicate (n - 1) 0 := by simp
    rw [hmapl, hmapg, List.drop_replicate]
    have hmean : ∀ k : ℕ, npMean (List.replicate k (0 : ℚ)) = 0 := by
      intro k
      unfold npMean
      simp [List.sum_replicate]
    rw [List.length_replicate, hmean, if_pos rfl]
  · unfold swCalculateRsi
    dsimp only
    rw [hdiff, List.length_replicate, if_neg (by omega), List.take_replicate]
    have hfil : (List.replicate (min period (n - 1)) (0 : ℚ)).filter
        (fun d => decide (d < 0)) = [] := by
      apply List.filter_eq_nil_iff.mpr
      intro x hx
      rw [List.eq_of_mem_replicate hx]
      simp
    rw [hfil]
    simp

/-- C2 counterexample: twenty identical closes with period 14 never produce
50.0 in any of the three cited RSI implementations; the kline-buffer version
and the tasks version return 100.0, the start_websocket version returns 70.0. -/
theorem c2_constant_prices_counterexample :
    binanceCalculateRsi (List.replicate 20 1) 14 ≠ some 50 ∧
    swCalculateRsi (List.replicate 20 1) 14 ≠ 50 ∧
    tasksCalculateRsi (List.replicate 20 1) 14 ≠ 50 := by
  obtain ⟨h1, h2, h3⟩ := rsi_constant_eval 1 20 14 (by omega)
  refine ⟨?_, ?_, ?_⟩
  · rw [h1]
    intro h
    have h100 := Option.some.inj h
    norm_num at h100
  · rw [h3]
    norm_num
  · rw [h2]
    norm_num

/-- C2 (amended): for at least period+1 identical closes the
zero-average-loss branch fires, never a division by zero, but the value
returned is the zero-loss sentinel of each implementation — 100.0 for
BinanceWebSocketClient._calculate_rsi and for
DistributedCryptoCalculator.calculate_rsi, 70.0 for the start_websocket
calculate_rsi — not the neutral 50.0, which is reserved for insufficient
data. -/
theorem c2_constant_prices_amended (c : ℚ) (n period : ℕ) (hn : period + 1 ≤ n) :
    binanceCalculateRsi (List.replicate n c) period = some 100 ∧
    tasksCalculateRsi (List.replicate n c) period = 100 ∧
    swCalculateRsi (List.replicate n c) period = 70 :=
  rsi_constant_eval c n period hn

/-- Witness for c2_constant_prices_amended at 20 identical closes, period 14. -/
theorem c2_constant_prices_amended_witness :
    14 + 1 ≤ 20 ∧
    (binanceCalculateRsi (List.replicate 20 1) 14 = some 100 ∧
     tasksCalculateRsi (List.replicate 20 1) 14 = 100 ∧
     swCalculateRsi (List.replicate 20 1) 14 = 70) :=
  ⟨by decide, c2_constant_prices_amended 1 20 14 (by decide)⟩

/-- Kline entry buffered by BinanceWebSocketClient._handle_kline_update:
the fields stored in kline_data_buffer[symbol] (payload keys t, T, o, h, l,
c, v, q, V, Q, x). Raw string payloads are modelled as exact rationals. -/
structure Kline where
  openTime : ℚ
  closeTime : ℚ
  o : ℚ
  h : ℚ
  l : ℚ
  c : ℚ
  volume : ℚ
  quoteVolume : ℚ
  takerBuyVolume : ℚ
  takerBuyQuoteVolume : ℚ
  isClosed : Bool
deriving DecidableEq, Repr

/-- Row of the numpy kline_history array in start_websocket.py, dtype
fields t, o, h, l, c, v, q. -/
structure HistKline where
  t : ℚ
  o : ℚ
  h : ℚ
  l : ℚ
  c : ℚ
  v : ℚ
  q : ℚ
deriving DecidableEq, Repr

/-- Python str.endswith restricted to exact suffix matching on code points. -/
def pyEndsWith (s suffix : String) : Bool := suffix.data.isSuffixOf s.data

/-- Buffer update of BinanceWebSocketClient._handle_kline_update for one
symbol: append the incoming kline (open or closed alike), then keep only the
last 65 entries. -/
def handleKlineUpdate (buf : List Kline) (k : Kline) : List Kline :=
  let b := buf ++ [k]
  if 65 < b.length then b.drop (b.length - 65) else b

/-- Command.update_kline_history in start_websocket.py for one symbol whose
history exists: append the new kline row, then keep only the last 250. The
early return for a symbol without prefetched history is handled at the call
site of the model. -/
def updateKlineHistory (hist : List HistKline) (k : HistKline) : List HistKline :=
  let b := hist ++ [k]
  if 250 < b.length then b.drop (b.length - 250) else b

/-- Projection of a websocket kline payload onto the numpy history row, as
built inline in Command.update_kline_history from keys t, o, h, l, c, v, q. -/
def histOfKline (k : Kline) : HistKline :=
  ⟨k.openTime, k.o, k.h, k.l, k.c, k.volume, k.quoteVolume⟩

/-- Kline branch of Command.receive_websocket_data in start_websocket.py:
history changes only when the symbol is nonempty, ends in USDT and the
candle is closed (payload key x); otherwise the event is ignored. -/
def receiveKlineEvent (hist : List HistKline) (symbol : String) (k : Kline) : List HistKline :=
  if symbol ≠ "" ∧ pyEndsWith symbol "USDT" = true ∧ k.isClosed = true then
    updateKlineHistory hist (histOfKline k)
  else hist

lemma handleKlineUpdate_length_le {buf : List Kline} (hb : buf.length ≤ 65) (k : Kline) :
    (handleKlineUpdate buf k).length ≤ 65 := by
  unfold handleKlineUpdate
  dsimp only
  split_ifs with hl
  · rw [List.length_drop]
    omega
  · rw [List.length_append] at hl ⊢
    simp at hl ⊢
    omega

lemma foldl_handleKlineUpdate_length_le {buf : List Kline} (hb : buf.length ≤ 65) :
    ∀ ks : List Kline, (ks.foldl handleKlineUpdate buf).length ≤ 65 := by
  intro ks
  induction ks generalizing buf with
  | nil => exact hb
  | cons k r ih => exact ih (handleKlineUpdate_length_le hb k)

lemma updateKlineHistory_length_le {hist : List HistKline} (hb : hist.length ≤ 250)
    (k : HistKline) : (updateKlineHistory hist k).length ≤ 250 := by
  unfold updateKlineHistory
  dsimp only
  split_ifs with hl
  · rw [List.length_drop]
    omega
  · rw [List.length_append] at hl ⊢
    simp at hl ⊢
    omega

lemma foldl_updateKlineHistory_length_le {hist : List HistKline} (hb : hist.length ≤ 250) :
    ∀ ks : List HistKline, (ks.foldl updateKlineHistory hist).length ≤ 250 := by
  intro ks
  induction ks generalizing hist with
  | nil => exact hb
  | cons k r ih => exact ih (updateKlineHistory_length_le hb k)

lemma handleKlineUpdate_full {buf : List Kline} (hb : buf.length = 65) (k : Kline) :
    handleKlineUpdate buf k = buf.drop 1 ++ [k] := by
  unfold handleKlineUpdate
  dsimp only
  rw [if_pos (by simp [hb])]
  rw [List.length_append, hb]
  have hone : (1 : ℕ) ≤ buf.length := by omega
  have harg : 65 + [k].length - 65 = 1 := by norm_num
  rw [harg]
  exact List.drop_append_of_le_length hone

lemma updateKlineHistory_full {hist : List HistKline} (hb : hist.length = 250) (k : HistKline) :
    updateKlineHistory hist k = hist.drop 1 ++ [k] := by
  unfold updateKlineHistory
  dsimp only
  rw [if_pos (by simp [hb])]
  rw [List.length_append, hb]
  have hone : (1 : ℕ) ≤ hist.length := by omega
  have harg : 250 + [k].length - 250 = 1 := by norm_num
  rw [harg]
  exact List.drop_append_of_le_length hone

/-- C3: both per-symbol rolling windows are bounded by their fixed capacity
(65 klines in binance_ws_client, 250 rows in start_websocket) after any
sequence of applies from a state within capacity, and an insertion into a
full window evicts exactly the oldest entry, FIFO. -/
theorem c3_window_bounded (buf buf2 ks : List Kline) (k : Kline)
    (hist hist2 : List HistKline) (hs : List HistKline) (hk : HistKline)
    (h1 : buf.length ≤ 65) (h2 : buf2.length = 65)
    (h3 : hist.length ≤ 250) (h4 : hist2.length = 250) :
    (ks.foldl handleKlineUpdate buf).length ≤ 65 ∧
    handleKlineUpdate buf2 k = buf2.drop 1 ++ [k] ∧
    (hs.foldl updateKlineHistory hist).length ≤ 250 ∧
    updateKlineHistory hist2 hk = hist2.drop 1 ++ [hk] :=
  ⟨foldl_handleKlineUpdate_length_le h1 ks, handleKlineUpdate_full h2 k,
   foldl_updateKlineHistory_length_le h3 hs, updateKlineHistory_full h4 hk⟩

/-- Zero-filled closed kline used as a concrete sample point. -/
def sampleKline : Kline := ⟨0, 0, 0, 0, 0, 0, 0, 0, 0, 0, true⟩

/-- Zero-filled history row used as a concrete sample point. -/
def sampleHistKline : HistKline := ⟨0, 0, 0, 0, 0, 0, 0⟩

/-- Witness for c3_window_bounded on a full 65-entry and 250-entry window. -/
theorem c3_window_bounded_witness :
    ((List.replicate 65 sampleKline).length ≤ 65 ∧ (List.replicate 65 sampleKline).length = 65 ∧
     (List.replicate 250 sampleHistKline).length ≤ 250 ∧
     (List.replicate 250 sampleHistKline).length = 250) ∧
    (([sampleKline].foldl handleKlineUpdate (List.replicate 65 sampleKline)).length ≤ 65 ∧
     handleKlineUpdate (List.replicate 65 sampleKline) sampleKline =
       (List.replicate 65 sampleKline).drop 1 ++ [sampleKline] ∧
     ([sampleHistKline].foldl updateKlineHistory (List.replicate 250 sampleHistKline)).length ≤ 250 ∧
     updateKlineHistory (List.replicate 250 sampleHistKline) sampleHistKline =
       (List.replicate 250 sampleHistKline).drop 1 ++ [sampleHistKline]) :=
  ⟨⟨by rw [List.length_replicate], by rw [List.length_replicate],
    by rw [List.length_replicate], by rw [List.length_replicate]⟩,
   c3_window_bounded (List.replicate 65 sampleKline) (List.replicate 65 sampleKline)
     [sampleKline] sampleKline (List.replicate 250 sampleHistKline)
     (List.replicate 250 sampleHistKline) [sampleHistKline] sampleHistKline
     (by rw [List.length_replicate]) (by rw [List.length_replicate])
     (by rw [List.length_replicate]) (by rw [List.length_replicate])⟩

/-- Open (not yet closed) kline used as a concrete sample point. -/
def sampleOpenKline : Kline := ⟨60000, 119999, 2, 3, 1, 2, 7, 11, 4, 5, false⟩

/-- C8 counterexample: an update carrying a still-open candle does not
replace the last element of the window. The binance_ws_client buffer appends
it (the one-element window grows to two), and the start_websocket handler
ignores it entirely (the history is unchanged), because only closed candles
are appended. -/
theorem c8_open_candle_counterexample :
    handleKlineUpdate [sampleKline] sampleOpenKline = [sampleKline, sampleOpenKline] ∧
    (handleKlineUpdate [sampleKline] sampleOpenKline).length = 2 ∧
    receiveKlineEvent [sampleHistKline] "BTCUSDT" sampleOpenKline = [sampleHistKline] := by
  refine ⟨?_, ?_, ?_⟩
  · rfl
  · rfl
  · rfl

lemma handleKlineUpdate_length_eq {buf : List Kline} (hb : buf.length ≤ 65) (k : Kline) :
    (handleKlineUpdate buf k).length = min (buf.length + 1) 65 := by
  unfold handleKlineUpdate
  dsimp only
  split_ifs with hl
  · rw [List.length_drop]
    rw [List.length_append] at hl ⊢
    simp at hl ⊢
    omega
  · rw [List.length_append] at hl ⊢
    simp at hl ⊢
    omega

lemma handleKlineUpdate_getLast {buf : List Kline} (hb : buf.length ≤ 65) (k : Kline) :
    (handleKlineUpdate buf k).getLast? = some k := by
  unfold handleKlineUpdate
  dsimp only
  split_ifs with hl
  · rw [List.length_append] at hl
    simp only [List.length_singleton] at hl
    have hone : buf.length + 1 - 65 ≤ buf.length := by omega
    rw [List.length_append, List.length_singleton,
      List.drop_append_of_le_length hone, List.getLast?_concat]
  · exact List.getLast?_concat buf

/-- C8 (amended): the two cited handlers have no replace-last path. The
binance_ws_client buffer appends every kline update, open or closed alike
(the new entry always becomes the last element and the length grows up to
the 65 cap), while the start_websocket handler drops an open-candle update
unchanged and appends (with eviction) exactly when the candle is closed for
a nonempty USDT symbol. -/
theorem c8_open_candle_amended (buf : List Kline) (k : Kline) (hb : buf.length ≤ 65)
    (hist : List HistKline) (s : String) (ko kc : Kline)
    (hko : ko.isClosed = false) (hkc : kc.isClosed = true)
    (hs1 : s ≠ "") (hs2 : pyEndsWith s "USDT" = true) :
    (handleKlineUpdate buf k).length = min (buf.length + 1) 65 ∧
    (handleKlineUpdate buf k).getLast? = some k ∧
    receiveKlineEvent hist s ko = hist ∧
    receiveKlineEvent hist s kc = updateKlineHistory hist (histOfKline kc) := by
  refine ⟨handleKlineUpdate_length_eq hb k, handleKlineUpdate_getLast hb k, ?_, ?_⟩
  · unfold receiveKlineEvent
    rw [if_neg]
    intro hcon
    rw [hko] at hcon
    exact absurd hcon.2.2 (by simp)
  · unfold receiveKlineEvent
    rw [if_pos ⟨hs1, hs2, hkc⟩]

/-- Witness for c8_open_candle_amended at concrete one-element windows. -/
theorem c8_open_candle_amended_witness :
    ([sampleKline].length ≤ 65 ∧ sampleOpenKline.isClosed = false ∧
     sampleKline.isClosed = true ∧ "BTCUSDT" ≠ "" ∧ pyEndsWith "BTCUSDT" "USDT" = true) ∧
    ((handleKlineUpdate [sampleKline] sampleOpenKline).length = min ([sampleKline].length + 1) 65 ∧
     (handleKlineUpdate [sampleKline] sampleOpenKline).getLast? = some sampleOpenKline ∧
     receiveKlineEvent [sampleHistKline] "BTCUSDT" sampleOpenKline = [sampleHistKline] ∧
     receiveKlineEvent [sampleHistKline] "BTCUSDT" sampleKline =
       updateKlineHistory [sampleHistKline] (histOfKline sampleKline)) :=
  ⟨⟨by decide, by decide, by decide, by decide, by decide⟩,
   c8_open_candle_amended [sampleKline] sampleOpenKline (by decide)
     [sampleHistKline] "BTCUSDT" sampleOpenKline sampleKline
     (by decide) (by decide) (by decide) (by decide)⟩

/-- Ticker record buffered by BinanceWebSocketClient._handle_ticker_update
for one symbol (payload keys s, c, P, h, l, q, b, a, o; the wall-clock
last_update stamp is not modelled). -/
structure Ticker where
  symbol : String
  lastPrice : ℚ
  priceChangePct24h : ℚ
  high24h : ℚ
  low24h : ℚ
  quoteVolume24h : ℚ
  bid : ℚ
  ask : ℚ
  open24h : ℚ
deriving DecidableEq, Repr

/-- Python dict assignment d[s] = v on an association list with unique keys:
replace the binding if the key is present, append it otherwise. -/
def dictInsert {V : Type} : List (String × V) → String → V → List (String × V)
  | [], s, v => [(s, v)]
  | p :: r, s, v => if p.1 = s then (s, v) :: r else p :: dictInsert r s v

/-- Python dict read d.get(s) on an association list. -/
def dictLookup {V : Type} : List (String × V) → String → Option V
  | [], _ => none
  | p :: r, s => if p.1 = s then some p.2 else dictLookup r s

/-- BinanceWebSocketClient._handle_ticker_update: every element of a ticker
array frame with a nonempty symbol overwrites that symbol's slot in
ticker_data_buffer; empty symbols are skipped. -/
def handleTickerUpdate (buf : List (String × Ticker)) (tickers : List Ticker) :
    List (String × Ticker) :=
  tickers.foldl (fun b t => if t.symbol = "" then b else dictInsert b t.symbol t) buf

lemma dictInsert_cons {V : Type} (p : String × V) (r : List (String × V)) (s : String) (v : V) :
    dictInsert (p :: r) s v = if p.1 = s then (s, v) :: r else p :: dictInsert r s v := rfl

lemma dictLookup_cons {V : Type} (p : String × V) (r : List (String × V)) (s : String) :
    dictLookup (p :: r) s = if p.1 = s then some p.2 else dictLookup r s := rfl

lemma dictLookup_insert_self {V : Type} (buf : List (String × V)) (s : String) (v : V) :
    dictLookup (dictInsert buf s v) s = some v := by
  induction buf with
  | nil => simp [dictInsert, dictLookup]
  | cons p r ih =>
      by_cases hp : p.1 = s
      · rw [dictInsert_cons, if_pos hp, dictLookup_cons, if_pos rfl]
      · rw [dictInsert_cons, if_neg hp, dictLookup_cons, if_neg hp]
        exact ih

lemma dictLookup_insert_ne {V : Type} (buf : List (String × V)) (s s' : String) (v : V)
    (h : s ≠ s') : dictLookup (dictInsert buf s v) s' = dictLookup buf s' := by
  induction buf with
  | nil => simp [dictInsert, dictLookup, h]
  | cons p r ih =>
      by_cases hp : p.1 = s
      · rw [dictInsert_cons, if_pos hp, dictLookup_cons, if_neg h,
          dictLookup_cons, if_neg (by rw [hp]; exact h)]
      · rw [dictInsert_cons, if_neg hp, dictLookup_cons, dictLookup_cons]
        by_cases hp2 : p.1 = s'
        · rw [if_pos hp2, if_pos hp2]
        · rw [if_neg hp2, if_neg hp2]
          exact ih

lemma mem_keys_dictInsert {V : Type} {buf : List (String × V)} {s x : String} {v : V}
    (h : x ∈ (dictInsert buf s v).map Prod.fst) : x ∈ buf.map Prod.fst ∨ x = s := by
  induction buf with
  | nil => simpa [dictInsert] using h
  | cons p r ih =>
      by_cases hp : p.1 = s
      · rw [dictInsert_cons, if_pos hp] at h
        simp only [List.map_cons, List.mem_cons] at h
        rcases h with h | h
        · exact Or.inr h
        · exact Or.inl (by simp [h])
      · rw [dictInsert_cons, if_neg hp] at h
        simp only [List.map_cons, List.mem_cons] at h
        rcases h with h | h
        · exact Or.inl (by simp [h])
        · rcases ih h with h2 | h2
          · exact Or.inl (by simp [h2])
          · exact Or.inr h2

lemma dictInsert_keys_nodup {V : Type} {buf : List (String × V)} (s : String) (v : V)
    (h : (buf.map Prod.fst).Nodup) : ((dictInsert buf s v).map Prod.fst).Nodup := by
  induction buf with
  | nil => simp [dictInsert]
  | cons p r ih =>
      simp only [List.map_cons, List.nodup_cons] at h
      by_cases hp : p.1 = s
      · rw [dictInsert_cons, if_pos hp]
        simp only [List.map_cons, List.nodup_cons]
        exact ⟨hp ▸ h.1, h.2⟩
      · rw [dictInsert_cons, if_neg hp]
        simp only [List.map_cons, List.nodup_cons]
        refine ⟨?_, ih h.2⟩
        intro hmem
        rcases mem_keys_dictInsert hmem with h2 | h2
        · exact h.1 h2
        · exact hp h2

lemma handleTickerUpdate_keys_nodup (ts : List Ticker) :
    ∀ buf : List (String × Ticker), (buf.map Prod.fst).Nodup →
      ((handleTickerUpdate buf ts).map Prod.fst).Nodup := by
  induction ts with
  | nil => intro buf h; exact h
  | cons t r ih =>
      intro buf h
      unfold handleTickerUpdate
      rw [List.foldl_cons]
      by_cases ht : t.symbol = ""
      · rw [if_pos ht]
        exact ih buf h
      · rw [if_neg ht]
        exact ih _ (dictInsert_keys_nodup t.symbol t h)

lemma handleTickerUpdate_lookup (s : String) (hs : s ≠ "") (ts : List Ticker) :
    ∀ buf : List (String × Ticker),
      dictLookup (handleTickerUpdate buf ts) s =
        match (ts.filter (fun t => t.symbol = s)).getLast? with
        | some t => some t
        | none => dictLookup buf s := by
  induction ts with
  | nil => intro buf; rfl
  | cons t r ih =>
      intro buf
      unfold handleTickerUpdate at ih ⊢
      rw [List.foldl_cons]
      by_cases hts : t.symbol = s
      · rw [if_neg (by rw [hts]; exact hs), hts]
        rw [List.filter_cons_of_pos (by simp [hts])]
        rw [ih (dictInsert buf s t)]
        cases hfil : r.filter (fun u => u.symbol = s) with
        | nil => simp [dictLookup_insert_self]
        | cons a b =>
            rw [List.getLast?_cons_cons]
            cases hgl : (a :: b).getLast? with
            | none => exact absurd (List.getLast?_eq_none_iff.mp hgl) (by simp)
            | some u => rfl
      · rw [List.filter_cons_of_neg (by simp [hts])]
        by_cases hte : t.symbol = ""
        · rw [if_pos hte]
          exact ih buf
        · rw [if_neg hte, ih (dictInsert buf t.symbol t)]
          cases (r.filter (fun u => u.symbol = s)).getLast? with
          | none => exact dictLookup_insert_ne buf t.symbol s t hts
          | some u => rfl

/-- C4: within one flush tick the batch built from the ticker buffer contains
at most one entry per symbol (the buffer keys stay duplicate-free under any
sequence of ticker-array frames), and the entry recorded for a symbol is the
last update of that symbol received in the tick. -/
theorem c4_dedup_by_latest (ts : List Ticker) (s : String) (hs : s ≠ "") :
    ((handleTickerUpdate [] ts).map Prod.fst).Nodup ∧
    dictLookup (handleTickerUpdate [] ts) s =
      (ts.filter (fun t => t.symbol = s)).getLast? := by
  refine ⟨handleTickerUpdate_keys_nodup ts [] (by simp), ?_⟩
  rw [handleTickerUpdate_lookup s hs ts []]
  cases (ts.filter (fun t => t.symbol = s)).getLast? with
  | none => rfl
  | some u => rfl

/-- Concrete tickers for the c4 witness: same symbol updated twice in a tick. -/
def sampleTickerA : Ticker := ⟨"BTCUSDT", 100, 1, 110, 90, 1000, 99, 101, 95⟩

/-- Second update for the same symbol with a different price. -/
def sampleTickerB : Ticker := ⟨"BTCUSDT", 105, 2, 110, 90, 1100, 104, 106, 95⟩

/-- Witness for c4_dedup_by_latest: two updates for BTCUSDT in one tick
produce one buffer entry holding the second update. -/
theorem c4_dedup_by_latest_witness :
    "BTCUSDT" ≠ "" ∧
    (((handleTickerUpdate [] [sampleTickerA, sampleTickerB]).map Prod.fst).Nodup ∧
     dictLookup (handleTickerUpdate [] [sampleTickerA, sampleTickerB]) "BTCUSDT" =
       ([sampleTickerA, sampleTickerB].filter
         (fun t => t.symbol = "BTCUSDT")).getLast?) :=
  ⟨by decide, c4_dedup_by_latest [sampleTickerA, sampleTickerB] "BTCUSDT" (by decide)⟩

/-- Row of a REST klines response as indexed by fetch_klines_for_symbol in
consumers.py: index 2 high, 3 low, 4 close, 7 quote volume, 10 taker buy
quote volume (unused indices omitted). -/
structure RestKline where
  h : ℚ
  l : ℚ
  c : ℚ
  q : ℚ
  tbq : ℚ
deriving DecidableEq, Repr

/-- Volume fields of one timeframe as produced by fetch_klines_for_symbol. -/
structure TfVolumeFields where
  vol : ℚ
  bv : ℚ
  sv : ℚ
  nv : ℚ
deriving Repr

/-- Volume block of fetch_klines_for_symbol in CryptoConsumer (consumers.py):
over the last tf_minutes klines, tf_volume sums quote volume, buy_vol sums
taker buy quote volume, sell_vol = tf_volume - buy_vol, net = buy - sell;
every stored field is rounded to two decimals. -/
def consumersTfVolumes (klines : List RestKline) (tfMinutes : ℕ) : TfVolumeFields :=
  let window := klines.drop (klines.length - tfMinutes)
  let tfVolume := (window.map (fun k => k.q)).sum
  let buyVol := (window.map (fun k => k.tbq)).sum
  let sellVol := tfVolume - buyVol
  ⟨pyRound tfVolume 2, pyRound buyVol 2, pyRound sellVol 2, pyRound (buyVol - sellVol) 2⟩

lemma roundHalfEven_close (y : ℚ) : |(roundHalfEven y : ℚ) - y| ≤ 1/2 := by
  unfold roundHalfEven
  dsimp only
  have hfl : (⌊y⌋ : ℚ) ≤ y := Int.floor_le y
  have hfu : y < (⌊y⌋ : ℚ) + 1 := Int.lt_floor_add_one y
  split_ifs with h1 h2 h3
  · rw [abs_le]
    constructor <;> linarith
  · push_cast
    rw [abs_le]
    constructor <;> linarith
  · rw [abs_le]
    constructor <;> linarith
  · push_cast
    rw [abs_le]
    constructor <;> linarith

lemma pyRound_close (x : ℚ) (nd : ℕ) : |pyRound x nd - x| ≤ 1 / (2 * 10 ^ nd) := by
  unfold pyRound
  have hpow : (0 : ℚ) < 10 ^ nd := by positivity
  have hy := roundHalfEven_close ((10 ^ nd : ℚ) * x)
  have heq : (roundHalfEven ((10 ^ nd : ℚ) * x) : ℚ) / (10 ^ nd : ℚ) - x =
      ((roundHalfEven ((10 ^ nd : ℚ) * x) : ℚ) - (10 ^ nd : ℚ) * x) / (10 ^ nd : ℚ) := by
    field_simp
  rw [heq, abs_div, abs_of_pos hpow,
    show (1 : ℚ) / (2 * 10 ^ nd) = (1 / 2) / (10 ^ nd : ℚ) by ring]
  exact (div_le_div_iff_of_pos_right hpow).mpr hy

lemma abs_add_sub_bound {a b c e : ℚ} (ha : |a| ≤ e) (hb : |b| ≤ e) (hc : |c| ≤ e) :
    |a + b - c| ≤ 3 * e := by
  rw [sub_eq_add_neg]
  have h1 := abs_add (a + b) (-c)
  have h2 := abs_add a b
  have h3 : |(-c : ℚ)| = |c| := abs_neg c
  linarith

/-- C5 (amended): on the consumers kline-fetch path the identities of the
claim hold up to the two-decimal rounding of the stored fields: the buy and
sell fields sum to the volume field, sell equals volume minus buy, and net
equals buy minus sell, each within 3/200. (The exact identities hold before
rounding, since sell_vol is defined as tf_volume - buy_vol.) The same
identities fail in start_websocket._calculate_metrics_sync, see the
counterexample. -/
theorem c5_volume_identities_amended (klines : List RestKline) (m : ℕ) :
    |(consumersTfVolumes klines m).bv + (consumersTfVolumes klines m).sv -
      (consumersTfVolumes klines m).vol| ≤ 3/200 ∧
    |(consumersTfVolumes klines m).sv -
      ((consumersTfVolumes klines m).vol - (consumersTfVolumes klines m).bv)| ≤ 3/200 ∧
    |(consumersTfVolumes klines m).nv -
      ((consumersTfVolumes klines m).bv - (consumersTfVolumes klines m).sv)| ≤ 3/200 := by
  unfold consumersTfVolumes
  dsimp only
  set w := klines.drop (klines.length - m) with hw
  set t := (w.map (fun k => k.q)).sum with ht
  set b := (w.map (fun k => k.tbq)).sum with hb
  have e1 := pyRound_close b 2
  have e2 := pyRound_close (t - b) 2
  have e3 := pyRound_close t 2
  have e4 := pyRound_close (b - (t - b)) 2
  have hnum : ((1 : ℚ) / (2 * 10 ^ 2)) = 1/200 := by norm_num
  rw [hnum] at e1 e2 e3 e4
  refine ⟨?_, ?_, ?_⟩
  · have hrw : pyRound b 2 + pyRound (t - b) 2 - pyRound t 2 =
        (pyRound b 2 - b) + (pyRound (t - b) 2 - (t - b)) - (pyRound t 2 - t) := by ring
    rw [hrw]
    have := abs_add_sub_bound e1 e2 e3
    linarith
  · have hrw : pyRound (t - b) 2 - (pyRound t 2 - pyRound b 2) =
        (pyRound b 2 - b) + (pyRound (t - b) 2 - (t - b)) - (pyRound t 2 - t) := by ring
    rw [hrw]
    have := abs_add_sub_bound e1 e2 e3
    linarith
  · have hrw : pyRound (b - (t - b)) 2 - (pyRound b 2 - pyRound (t - b) 2) =
        (pyRound (b - (t - b)) 2 - (b - (t - b))) + (pyRound (t - b) 2 - (t - b)) -
          (pyRound b 2 - b) := by ring
    rw [hrw]
    have := abs_add_sub_bound e4 e2 e1
    linarith

/-- Per-timeframe block of Command._calculate_metrics_sync in
start_websocket.py: the window is the klines whose open time lies within the
timeframe (with the two-minute fallback for m1), and the volume fields are
key_nv = sum (close - open) * v, key_bv = period quote volume,
key_sv = sum v * (high - close), with key_vol = period base volume only for
m1, m5, m10, m15 and m60. Values are stored unrounded as floats. -/
def swPeriodMetrics (nowMs avgMinuteVol24h : ℚ) (klines : List HistKline)
    (key : String) (minutes : ℕ) : List (String × ℚ) :=
  let startMs := nowMs - (minutes : ℚ) * 60 * 1000
  let p0 := klines.filter (fun k => startMs ≤ k.t)
  let periodKlines :=
    if key = "m1" ∧ p0 = [] then klines.filter (fun k => nowMs - 2 * 60 * 1000 ≤ k.t) else p0
  match periodKlines with
  | [] => []
  | k0 :: rest =>
    let openPrice := k0.o
    let closePrice := ((k0 :: rest).getLastD k0).c
    let retF := if 0 < openPrice then [(key, ((closePrice - openPrice) / openPrice) * 100)] else []
    let low := (rest.map (fun k => k.l)).foldl min k0.l
    let high := (rest.map (fun k => k.h)).foldl max k0.h
    let rangeF := if 0 < openPrice then [(key ++ "_range_pct", ((high - low) / openPrice) * 100)]
      else []
    let baseVol := ((k0 :: rest).map (fun k => k.v)).sum
    let quoteVol := ((k0 :: rest).map (fun k => k.q)).sum
    let nv := ((k0 :: rest).map (fun k => (k.c - k.o) * k.v)).sum
    let sv := ((k0 :: rest).map (fun k => k.v * (k.h - k.c))).sum
    let volF := if key = "m1" ∨ key = "m5" ∨ key = "m10" ∨ key = "m15" ∨ key = "m60" then
        [(key ++ "_vol", baseVol)] else []
    let volPctF := if 0 < avgMinuteVol24h then
        [(key ++ "_vol_pct",
          if 0 < avgMinuteVol24h * (minutes : ℚ) then
            (quoteVol / (avgMinuteVol24h * (minutes : ℚ))) * 100 else 0)]
      else []
    retF ++ [(key ++ "_low", low), (key ++ "_high", high)] ++ rangeF ++
      [(key ++ "_nv", nv), (key ++ "_bv", quoteVol), (key ++ "_sv", sv)] ++ volF ++ volPctF

/-- Single kline row used as the C5 counterexample input: open 1, high 3,
low 1, close 2, base volume 1, quote volume 5. -/
def cexHistKline : HistKline := ⟨0, 1, 3, 1, 2, 1, 5⟩

/-- C5 counterexample: in start_websocket._calculate_metrics_sync, for the m1
timeframe over a single kline with open 1, high 3, close 2, base volume 1 and
quote volume 5, the produced fields are m1_bv = 5, m1_sv = 1, m1_vol = 1 and
m1_nv = 1, so sell_volume is not volume minus buy_volume (1 vs -4),
net_volume is not buy minus sell (1 vs 4), and bv + sv misses the volume
field by 5, far beyond any rounding tolerance. -/
theorem c5_volume_identities_counterexample :
    dictLookup (swPeriodMetrics 0 0 [cexHistKline] "m1" 1) "m1_bv" = some 5 ∧
    dictLookup (swPeriodMetrics 0 0 [cexHistKline] "m1" 1) "m1_sv" = some 1 ∧
    dictLookup (swPeriodMetrics 0 0 [cexHistKline] "m1" 1) "m1_vol" = some 1 ∧
    dictLookup (swPeriodMetrics 0 0 [cexHistKline] "m1" 1) "m1_nv" = some 1 ∧
    (1 : ℚ) ≠ 1 - 5 ∧ (1 : ℚ) ≠ 5 - 1 ∧ (5 : ℚ) + 1 - 1 = 5 := by
  have hm : swPeriodMetrics 0 0 [cexHistKline] "m1" 1 =
      [("m1", 100), ("m1_low", 1), ("m1_high", 3), ("m1_range_pct", 200),
       ("m1_nv", 1), ("m1_bv", 5), ("m1_sv", 1), ("m1_vol", 1)] := by
    unfold swPeriodMetrics
    have hfil : [cexHistKline].filter (fun k => (0 : ℚ) - (1 : ℚ) * 60 * 1000 ≤ k.t) =
        [cexHistKline] := by
      rw [List.filter_cons]
      rw [if_pos]
      · rfl
      · simp only [decide_eq_true_eq]
        norm_num [cexHistKline]
    push_cast
    rw [hfil]
    rw [if_neg (by simp)]
    unfold cexHistKline
    norm_num [List.getLastD]
  rw [hm]
  refine ⟨?_, ?_, ?_, ?_, by norm_num, by norm_num, by norm_num⟩ <;>
    simp [dictLookup_cons, dictLookup]

/-- Timeframe block of BinanceWebSocketClient._calculate_metrics for one
entry (tf_name, idx_offset) of its timeframes list: fields are added only
when at least idx_offset klines exist and the close at klines[-idx_offset]
is positive; volumes sum quote volume and taker buy quote volume over the
last idx_offset - 1 klines; the percentage is rounded to 4 decimals and the
volumes to 2. -/
def bwsTfFields (current : ℚ) (klines : List Kline) (name : String) (off : ℕ) :
    List (String × ℚ) :=
  if off ≤ klines.length then
    match (klines.drop (klines.length - off)).head? with
    | none => []
    | some kOff =>
      if 0 < kOff.c then
        let window := klines.drop (klines.length - min (off - 1) klines.length)
        let tfVol := (window.map (fun k => k.quoteVolume)).sum
        let buyVol := (window.map (fun k => k.takerBuyQuoteVolume)).sum
        [(name, pyRound (((current - kOff.c) / kOff.c) * 100) 4),
         (name ++ "_vol", pyRound tfVol 2),
         (name ++ "_bv", pyRound buyVol 2),
         (name ++ "_sv", pyRound (tfVol - buyVol) 2),
         (name ++ "_nv", pyRound (buyVol - (tfVol - buyVol)) 2)]
      else []
  else []

/-- Numeric fields of BinanceWebSocketClient._calculate_metrics: ticker base
fields and spread always; RSI and the seven timeframe blocks only when at
least two klines are buffered. The symbol field is kept outside the record
and close prices are taken from every buffered kline. -/
def bwsCalculateMetrics (t : Ticker) (klines : List Kline) : List (String × ℚ) :=
  let base := [("last_price", t.lastPrice), ("price_change_percent_24h", t.priceChangePct24h),
    ("high_price_24h", t.high24h), ("low_price_24h", t.low24h),
    ("quote_volume_24h", t.quoteVolume24h), ("bid_price", t.bid), ("ask_price", t.ask),
    ("spread", if 0 < t.bid ∧ 0 < t.ask then t.ask - t.bid else 0)]
  if 2 ≤ klines.length then
    let closes := klines.map (fun k => k.c)
    let rsiF := if 15 ≤ closes.length then
        match binanceCalculateRsi (closes.drop (closes.length - 15)) 14 with
        | some r => [("rsi_1m", r)]
        | none => []
      else []
    base ++ rsiF ++
      bwsTfFields t.lastPrice klines "m1" 2 ++ bwsTfFields t.lastPrice klines "m2" 3 ++
      bwsTfFields t.lastPrice klines "m3" 4 ++ bwsTfFields t.lastPrice klines "m5" 6 ++
      bwsTfFields t.lastPrice klines "m10" 11 ++ bwsTfFields t.lastPrice klines "m15" 16 ++
      bwsTfFields t.lastPrice klines "m60" 61
  else base

/-- One tick of BinanceWebSocketClient._update_database: the ticker buffer is
snapshotted and cleared, and every snapshotted symbol is upserted with the
metrics computed from its buffered klines. The first component is the upsert
batch of the tick, the second the ticker buffer left for the next tick. -/
def updateDatabaseFlush (tickerBuf : List (String × Ticker))
    (klineBuf : List (String × List Kline)) :
    List (String × List (String × ℚ)) × List (String × Ticker) :=
  (tickerBuf.map (fun p => (p.1, bwsCalculateMetrics p.2 ((dictLookup klineBuf p.1).getD []))),
   [])

/-- C6 counterexample: a tick whose buffer holds 500 symbols upserts all 500
of them in that tick — not 100 — and leaves an empty buffer, so no symbol is
carried over to the next tick. -/
theorem c6_batch_cap_counterexample :
    (updateDatabaseFlush ((List.range 500).map (fun i => (toString i, sampleTickerA))) []).1.length
      = 500 ∧
    ¬((updateDatabaseFlush ((List.range 500).map (fun i => (toString i, sampleTickerA))) []).1.length
      = 100) ∧
    (updateDatabaseFlush ((List.range 500).map (fun i => (toString i, sampleTickerA))) []).2
      = [] := by
  refine ⟨?_, ?_, ?_⟩
  · simp [updateDatabaseFlush]
  · simp [updateDatabaseFlush]
  · rfl

/-- C6 (amended): BinanceWebSocketClient._update_database has no batch cap:
a flush tick upserts every symbol buffered at its start (in buffer order) and
clears the buffer, so nothing is carried to the next tick. -/
theorem c6_flush_drains_all (tickerBuf : List (String × Ticker))
    (klineBuf : List (String × List Kline)) :
    (updateDatabaseFlush tickerBuf klineBuf).1.map Prod.fst = tickerBuf.map Prod.fst ∧
    (updateDatabaseFlush tickerBuf klineBuf).2 = [] := by
  constructor
  · unfold updateDatabaseFlush
    rw [List.map_map]
    rfl
  · rfl


lemma dictLookup_eq_none_of_keys {V : Type} {l : List (String × V)} {s : String}
    (h : ∀ p ∈ l, p.1 ≠ s) : dictLookup l s = none := by
  induction l with
  | nil => rfl
  | cons p r ih =>
      rw [dictLookup_cons, if_neg (h p (by simp))]
      exact ih (fun q hq => h q (by simp [hq]))

lemma dictLookup_append_of_none {V : Type} {l₁ l₂ : List (String × V)} {s : String}
    (h : dictLookup l₁ s = none) : dictLookup (l₁ ++ l₂) s = dictLookup l₂ s := by
  induction l₁ with
  | nil => rfl
  | cons p r ih =>
      rw [dictLookup_cons] at h
      rw [List.cons_append, dictLookup_cons]
      by_cases hp : p.1 = s
      · rw [if_pos hp] at h
        exact absurd h (by simp)
      · rw [if_neg hp] at h ⊢
        exact ih h

lemma dictLookup_ite_none {V : Type} (c : Prop) [Decidable c] (l₁ l₂ : List (String × V))
    (s : String) (h1 : dictLookup l₁ s = none) (h2 : dictLookup l₂ s = none) :
    dictLookup (if c then l₁ else l₂) s = none := by
  split_ifs <;> assumption

lemma bwsTfFields_key_mem {cur : ℚ} {klines : List Kline} {name : String} {off : ℕ}
    {p : String × ℚ} (h : p ∈ bwsTfFields cur klines name off) :
    p.1 = name ∨ p.1 = name ++ "_vol" ∨ p.1 = name ++ "_bv" ∨
    p.1 = name ++ "_sv" ∨ p.1 = name ++ "_nv" := by
  unfold bwsTfFields at h
  split_ifs at h with h1
  · rcases hh : (klines.drop (klines.length - off)).head? with _ | k
    · rw [hh] at h
      simp at h
    · rw [hh] at h
      dsimp only at h
      split_ifs at h with h2
      · simp only [List.mem_cons, List.not_mem_nil, or_false] at h
        rcases h with rfl | rfl | rfl | rfl | rfl
        · exact Or.inl rfl
        · exact Or.inr (Or.inl rfl)
        · exact Or.inr (Or.inr (Or.inl rfl))
        · exact Or.inr (Or.inr (Or.inr (Or.inl rfl)))
        · exact Or.inr (Or.inr (Or.inr (Or.inr rfl)))
      · simp at h
  · simp at h

lemma dictLookup_bwsTfFields_m60 (cur : ℚ) (klines : List Kline) (name : String) (off : ℕ)
    (h1 : name ≠ "m60") (h2 : name ++ "_vol" ≠ "m60") (h3 : name ++ "_bv" ≠ "m60")
    (h4 : name ++ "_sv" ≠ "m60") (h5 : name ++ "_nv" ≠ "m60") :
    dictLookup (bwsTfFields cur klines name off) "m60" = none := by
  apply dictLookup_eq_none_of_keys
  intro p hp
  rcases bwsTfFields_key_mem hp with hk | hk | hk | hk | hk <;> rw [hk]
  · exact h1
  · exact h2
  · exact h3
  · exact h4
  · exact h5

lemma bwsTfFields_eq_nil_of_short {cur : ℚ} {klines : List Kline} {name : String} {off : ℕ}
    (h : klines.length < off) : bwsTfFields cur klines name off = [] := by
  unfold bwsTfFields
  rw [if_neg (by omega)]

lemma dictLookup_rsi_match_m60 (o : Option ℚ) :
    dictLookup (match o with | some r => [("rsi_1m", r)] | none => []) "m60" = none := by
  cases o with
  | none => rfl
  | some r =>
      apply dictLookup_eq_none_of_keys
      intro p hp
      simp only [List.mem_cons, List.not_mem_nil, or_false] at hp
      rw [hp]
      intro hc
      simp at hc

lemma bwsBase_lookup_m60 (t : Ticker) :
    dictLookup [("last_price", t.lastPrice),
      ("price_change_percent_24h", t.priceChangePct24h), ("high_price_24h", t.high24h),
      ("low_price_24h", t.low24h), ("quote_volume_24h", t.quoteVolume24h),
      ("bid_price", t.bid), ("ask_price", t.ask),
      ("spread", if 0 < t.bid ∧ 0 < t.ask then t.ask - t.bid else 0)] "m60" = none := by
  apply dictLookup_eq_none_of_keys
  intro p hp
  simp only [List.mem_cons, List.not_mem_nil, or_false] at hp
  rcases hp with rfl | rfl | rfl | rfl | rfl | rfl | rfl | rfl <;>
    (intro hc; simp at hc)

/-- C7 (amended): BinanceWebSocketClient._calculate_metrics omits the m60
return field entirely when fewer than 61 klines are buffered, so on this
path an unknown sixty-minute return is distinguishable from a flat price;
but the fallback record builders of consumers.py and start_websocket.py
report zero for it instead, see the counterexample. -/
theorem c7_return_pct_omitted_amended (t : Ticker) (klines : List Kline)
    (h : klines.length < 61) :
    dictLookup (bwsCalculateMetrics t klines) "m60" = none := by
  unfold bwsCalculateMetrics
  dsimp only
  by_cases h2 : 2 ≤ klines.length
  · rw [if_pos h2]
    simp only [List.append_assoc]
    rw [dictLookup_append_of_none (bwsBase_lookup_m60 t),
      dictLookup_append_of_none (dictLookup_ite_none _ _ [] _
        (dictLookup_rsi_match_m60 _) rfl),
      dictLookup_append_of_none (dictLookup_bwsTfFields_m60 _ _ _ _
        (by decide) (by decide) (by decide) (by decide) (by decide)),
      dictLookup_append_of_none (dictLookup_bwsTfFields_m60 _ _ _ _
        (by decide) (by decide) (by decide) (by decide) (by decide)),
      dictLookup_append_of_none (dictLookup_bwsTfFields_m60 _ _ _ _
        (by decide) (by decide) (by decide) (by decide) (by decide)),
      dictLookup_append_of_none (dictLookup_bwsTfFields_m60 _ _ _ _
        (by decide) (by decide) (by decide) (by decide) (by decide)),
      dictLookup_append_of_none (dictLookup_bwsTfFields_m60 _ _ _ _
        (by decide) (by decide) (by decide) (by decide) (by decide)),
      dictLookup_append_of_none (dictLookup_bwsTfFields_m60 _ _ _ _
        (by decide) (by decide) (by decide) (by decide) (by decide)),
      bwsTfFields_eq_nil_of_short h]
    rfl
  · rw [if_neg h2]
    exact bwsBase_lookup_m60 t

/-- Witness for c7_return_pct_omitted_amended with an empty kline buffer. -/
theorem c7_return_pct_omitted_amended_witness :
    ([] : List Kline).length < 61 ∧
    dictLookup (bwsCalculateMetrics sampleTickerA []) "m60" = none :=
  ⟨by decide, c7_return_pct_omitted_amended sampleTickerA [] (by decide)⟩

/-- CryptoConsumer._basic_ticker_data_with_zeros (consumers.py): the fallback
record used when klines are unavailable; every timeframe field, the m60
return included, is reported as zero, the low and high as the 24h extremes,
and every RSI as 50. String payloads are modelled as exact rationals. -/
def basicTickerDataWithZeros (t : Ticker) : List (String × ℚ) :=
  [("last_price", t.lastPrice), ("price_change_percent_24h", t.priceChangePct24h),
   ("high_price_24h", t.high24h), ("low_price_24h", t.low24h),
   ("quote_volume_24h", t.quoteVolume24h), ("bid_price", t.bid), ("ask_price", t.ask),
   ("spread", 0)] ++
  ((["m1", "m2", "m3", "m5", "m10", "m15", "m60"].map (fun tf =>
    [(tf, 0), (tf ++ "_r_pct", 0), (tf ++ "_vol", 0), (tf ++ "_vol_pct", 0),
     (tf ++ "_low", t.low24h), (tf ++ "_high", t.high24h), (tf ++ "_range_pct", 0),
     (tf ++ "_bv", 0), (tf ++ "_sv", 0), (tf ++ "_nv", 0)])).flatten) ++
  [("rsi_1m", 50), ("rsi_3m", 50), ("rsi_5m", 50), ("rsi_15m", 50)]

/-- Zero-default block of Command.bulk_upsert_database (start_websocket.py)
used when _calculate_metrics_sync produced no metrics: every timeframe
return, volume and range field defaults to 0, lows and highs to the last
price, and every RSI to 50. -/
def bulkUpsertZeroDefaults (fallbackPrice : ℚ) : List (String × ℚ) :=
  ((["m1", "m2", "m3", "m5", "m10", "m15", "m60"].map (fun tf =>
    [(tf, 0), (tf ++ "_vol_pct", 0), (tf ++ "_low", fallbackPrice),
     (tf ++ "_high", fallbackPrice), (tf ++ "_range_pct", 0),
     (tf ++ "_nv", 0), (tf ++ "_bv", 0), (tf ++ "_sv", 0)])).flatten) ++
  (["m1", "m5", "m10", "m15", "m60"].map (fun tf => (tf ++ "_vol", (0 : ℚ)))) ++
  [("rsi_1m", 50), ("rsi_3m", 50), ("rsi_5m", 50), ("rsi_15m", 50)]

/-- Per-symbol record built by Command.bulk_upsert_database: the raw ticker
fields, then either the calculated metrics or, when no metrics exist, the
zero defaults. Python dict.update with key-disjoint blocks is modelled as
list append. -/
def bulkUpsertRecord (t : Ticker) (metrics : List (String × ℚ)) : List (String × ℚ) :=
  let base := [("last_price", t.lastPrice), ("price_change_percent_24h", t.priceChangePct24h),
    ("high_price_24h", t.high24h), ("low_price_24h", t.low24h),
    ("quote_volume_24h", t.quoteVolume24h), ("bid_price", t.bid), ("ask_price", t.ask),
    ("spread", if t.ask ≠ 0 ∧ t.bid ≠ 0 then t.ask - t.bid else 0)]
  if metrics = [] then base ++ bulkUpsertZeroDefaults t.lastPrice
  else base ++ metrics

/-- C7 counterexample: on the fallback paths the sixty-minute return field is
present with value zero although no candle at the sixty-minute horizon
exists: the consumers fallback record and the bulk-upsert record built with
no metrics both map m60 to 0, so an unknown return is indistinguishable from
a flat price there. -/
theorem c7_return_pct_zero_counterexample :
    dictLookup (basicTickerDataWithZeros sampleTickerA) "m60" = some 0 ∧
    dictLookup (bulkUpsertRecord sampleTickerA []) "m60" = some 0 := by
  constructor
  · rfl
  · rfl

/-- Parsed form of one inbound websocket frame for
BinanceWebSocketClient._listen: a frame is either unparsable JSON, a ticker
array, or a kline message carrying its symbol. -/
inductive WsMessage where
  | malformed (raw : String)
  | tickerArr (ts : List Ticker)
  | klineMsg (symbol : String) (k : Kline)

/-- Mutable state of BinanceWebSocketClient touched by the listen loop:
both buffers and the message statistics. -/
structure ClientState where
  tickerBuffer : List (String × Ticker)
  klineBuffer : List (String × List Kline)
  tickerMessages : ℕ
  klineMessages : ℕ

/-- Kline dispatch of _handle_kline_update at the buffer level: empty
symbols are ignored, otherwise the symbol's buffer is appended to and
trimmed to 65. -/
def handleKlineBuffered (buf : List (String × List Kline)) (symbol : String) (k : Kline) :
    List (String × List Kline) :=
  if symbol = "" then buf
  else dictInsert buf symbol (handleKlineUpdate ((dictLookup buf symbol).getD []) k)

/-- One iteration of the message loop in BinanceWebSocketClient._listen: a
frame that fails json.loads is logged and dropped (the state is unchanged
and no exception escapes), a ticker array updates the ticker buffer, a kline
frame updates the kline buffer. -/
def listenStep (st : ClientState) (m : WsMessage) : ClientState :=
  match m with
  | .malformed _ => st
  | .tickerArr ts =>
      { st with tickerMessages := st.tickerMessages + 1,
                tickerBuffer := handleTickerUpdate st.tickerBuffer ts }
  | .klineMsg s k =>
      { st with klineMessages := st.klineMessages + 1,
                klineBuffer := handleKlineBuffered st.klineBuffer s k }

/-- The listen loop over a finite inbound message sequence. -/
def listenLoop (st : ClientState) (ms : List WsMessage) : ClientState :=
  ms.foldl listenStep st

/-- C9: a malformed frame anywhere in the inbound stream is dropped without
affecting anything else: the listen loop over any prefix, the malformed
frame, and any suffix reaches exactly the state of the loop without that
frame — a single message is lost, the loop keeps processing, and listenStep
is total so no per-message exception escapes. -/
theorem c9_malformed_dropped (st : ClientState) (pre post : List WsMessage) (raw : String) :
    listenLoop st (pre ++ WsMessage.malformed raw :: post) = listenLoop st (pre ++ post) := by
  unfold listenLoop
  rw [List.foldl_append, List.foldl_append, List.foldl_cons]
  rfl

/-- Quote currencies accepted by CryptoConsumer.receive for a
request_snapshot message. -/
def validCurrencies : List String := ["USDT", "USDC", "FDUSD", "BNB", "BTC", "EUR", "TRY", "ALL"]

/-- Python str.upper modelled code-point-wise (exact for the ASCII currency
codes involved). -/
def pyUpper (s : String) : String := ⟨s.data.map Char.toUpper⟩

/-- Quote-currency resolution of CryptoConsumer.receive: take the field or
the USDT default, uppercase it, and silently substitute USDT when it is not
one of the supported currencies. -/
def resolveQuoteCurrency (qc : Option String) : String :=
  let q := pyUpper (qc.getD "USDT")
  if q ∈ validCurrencies then q else "USDT"

/-- Page-size resolution int(message.get(page_size) or 100): missing and
falsy zero both become 100. -/
def resolvePageSize (ps : Option ℕ) : ℕ :=
  match ps with
  | none => 100
  | some n => if n = 0 then 100 else n

/-- Client frames understood by CryptoConsumer.receive: a request_snapshot
with its optional fields, or any other message type. -/
inductive ClientMessage where
  | requestSnapshot (sortBy sortOrder : Option String) (quoteCurrency : Option String)
      (pageSize : Option ℕ)
  | other (msgType : Option String)

/-- Outcome of CryptoConsumer.receive for one inbound client frame: silently
ignored, answered with snapshot data for a resolved currency, or rejected
with an error frame. The receive code contains no error-frame path. -/
inductive GatewayAction where
  | ignored
  | errorFrame (msg : String)
  | snapshotResponse (quoteCurrency : String) (fetchAll : Bool) (pageSize : ℕ)
deriving DecidableEq, Repr

/-- CryptoConsumer.receive: empty or unparsable text and unknown message
types return silently; a request_snapshot is always answered for the
resolved quote currency (the serializer and fast or slow path depend only on
the user plan, not on the currency validity). -/
def receive (m : Option ClientMessage) : GatewayAction :=
  match m with
  | none => .ignored
  | some (.other _) => .ignored
  | some (.requestSnapshot _ _ qc ps) =>
      let q := resolveQuoteCurrency qc
      .snapshotResponse q (q = "ALL") (resolvePageSize ps)

/-- C10: a request_snapshot whose quote currency uppercases to something
outside the supported set, or is missing, is answered normally with USDT
substituted — never ignored and never answered with an error frame. -/
theorem c10_invalid_currency_substituted (s : String) (hs : pyUpper s ∉ validCurrencies)
    (sortBy sortOrder : Option String) (ps : Option ℕ) :
    receive (some (.requestSnapshot sortBy sortOrder (some s) ps)) =
      .snapshotResponse "USDT" false (resolvePageSize ps) ∧
    receive (some (.requestSnapshot sortBy sortOrder none ps)) =
      .snapshotResponse "USDT" false (resolvePageSize ps) := by
  constructor
  · unfold receive resolveQuoteCurrency
    dsimp only [Option.getD]
    rw [if_neg hs]
    rfl
  · rfl

/-- Witness for c10_invalid_currency_substituted with the unsupported
currency DOGE and page size 7. -/
theorem c10_invalid_currency_substituted_witness :
    pyUpper "doge" ∉ validCurrencies ∧
    (receive (some (.requestSnapshot none none (some "doge") (some 7))) =
       .snapshotResponse "USDT" false (resolvePageSize (some 7)) ∧
     receive (some (.requestSnapshot none none none (some 7))) =
       .snapshotResponse "USDT" false (resolvePageSize (some 7))) :=
  ⟨by decide, c10_invalid_currency_substituted "doge" (by decide) none none (some 7)⟩
